import Mathlib

/-!
Verification of the Conecta social/messaging client against its
specification. The definitions below are shallow embeddings of the
TypeScript source: `MessagesModal.tsx` (conversations, ephemeral diary
notes), `ConnectionStreakShareModal.tsx` (canvas share image, publishing),
and `App.tsx` (OneSignal push-subscription syncing). Machine numbers are
embedded as `Int` (JavaScript numerics in the code stay well inside the
double-precision integer range), Firestore timestamps as records of
seconds and nanoseconds, and possibly-missing document fields as `Option`.
-/

namespace Conecta

/-- A Firestore timestamp as the client reads it:
a record of seconds and nanoseconds. -/
structure Timestamp where
  seconds : Int
  nanoseconds : Int
deriving DecidableEq, Repr

/-- A document of the `diaries` collection, as the `DiaryEntry` type of
`MessagesModal.tsx` reads it. `createdAt` is optional: the fetch code
guards with `diaryData.createdAt?.seconds`. -/
structure DiaryDoc where
  id : String
  userId : String
  username : String
  userAvatar : String
  text : String
  createdAt : Option Timestamp
deriving DecidableEq, Repr

/-- The signed-in Firebase user as the modal code reads it
(`auth.currentUser`). -/
structure CurrentUser where
  uid : String
  displayName : String
  photoURL : String
deriving DecidableEq, Repr

/-! ## Conversation id derivation (`MessagesModal.tsx`, `startConversationWithUser`)

`const conversationId = [currentUserId, targetUserId].sort().join('_')`:
JavaScript's default array sort puts the lexicographically smaller string
first, so the result is the sorted pair joined with an underscore. -/

/-- The conversation document id derived from the two participant ids. -/
def conversationId (a b : String) : String :=
  if a ≤ b then a ++ "_" ++ b else b ++ "_" ++ a

/-! ## Share-image background (`ConnectionStreakShareModal.tsx`, `generateImage`)

The canvas background fill chosen in step "1. Draw Background". -/

/-- A canvas fill style: a solid color or a linear gradient given by its
color stops (offset, color). -/
inductive FillStyle where
  | solid (color : String)
  | linearGradient (stops : List (Rat × String))
deriving DecidableEq, Repr

/-- The background fill `generateImage` selects from the streak count:
`streak <= 3` solid gray `#374151`; `streak <= 6` a blue-to-indigo
gradient; otherwise an amber-red-violet gradient. -/
def backgroundFillStyle (streak : Int) : FillStyle :=
  if streak ≤ 3 then
    .solid "#374151"
  else if streak ≤ 6 then
    .linearGradient [(0, "#3B82F6"), (1, "#6366F1")]
  else
    .linearGradient [(0, "#F59E0B"), (1/2, "#EF4444"), (1, "#8B5CF6")]

/-! ## Diary fetching (`MessagesModal.tsx`, `fetchDiaries`)

`twentyFourHoursAgo = new Date(Date.now() - 24 * 60 * 60 * 1000)`; a
fetched diary is kept when `diaryData.createdAt?.seconds` is truthy (the
field exists and its `seconds` is nonzero) and
`new Date(seconds * 1000) > twentyFourHoursAgo`. Times are in
milliseconds since the Unix epoch; `now` stands for `Date.now()`. -/

/-- Whether `fetchDiaries` keeps a fetched diary for the carousel. -/
def diaryVisible (now : Int) (d : DiaryDoc) : Bool :=
  match d.createdAt with
  | none => false
  | some ts =>
    if ts.seconds = 0 then false
    else decide (now - 24 * 60 * 60 * 1000 < ts.seconds * 1000)

/-- The carousel candidate set: the fetched diaries that pass the
24-hour filter (the `allDiaries` array of `fetchDiaries`). -/
def carouselCandidates (now : Int) (fetched : List DiaryDoc) : List DiaryDoc :=
  fetched.filter (diaryVisible now)

/-! ## Diary publishing (`MessagesModal.tsx`)

`isToday` (lines 40-47) turns the latest diary's timestamp into a local
calendar date and compares day, month and year with today's; two instants
share a local calendar (day, month, year) triple exactly when they fall in
the same local day, i.e. when their local-midnight-aligned day indices
agree. `tzOffsetMs` is the local timezone offset added to UTC;
`Int.fdiv` is floor division, matching how `Date` buckets instants into
local days. -/

/-- Whether a (possibly missing) timestamp falls on the same local
calendar day as the current time `nowMs` (milliseconds since epoch). -/
def isToday (tzOffsetMs nowMs : Int) (timestamp : Option Timestamp) : Bool :=
  match timestamp with
  | none => false
  | some ts =>
    decide ((ts.seconds * 1000 + tzOffsetMs).fdiv 86400000
      = (nowMs + tzOffsetMs).fdiv 86400000)

/-- The component state `handlePublishDiary` reads and writes, together
with the `diaries` collection it appends to. -/
structure PublishDiaryState where
  diaries : List DiaryDoc
  newDiaryEntry : String
  isPublishingDiary : Bool
  hasPostedToday : Bool
  myLatestDiary : Option DiaryDoc
deriving DecidableEq, Repr

/-- The `onSnapshot` handler on the current user's latest diary (lines
147-156): it stores the latest diary and recomputes `hasPostedToday`
with `isToday`. -/
def applyMyDiarySnapshot (tzOffsetMs nowMs : Int) (latest : Option DiaryDoc)
    (s : PublishDiaryState) : PublishDiaryState :=
  match latest with
  | some d =>
    { s with myLatestDiary := some d,
             hasPostedToday := isToday tzOffsetMs nowMs d.createdAt }
  | none => { s with myLatestDiary := none, hasPostedToday := false }

/-- `handlePublishDiary` (lines 306-325): returns unchanged when no user
is signed in, the trimmed entry is empty, or `hasPostedToday` holds;
otherwise it adds a diary document (when the backend write succeeds),
clears the entry text, and resets the publishing flag. `newId` is the
document id Firestore assigns; `addDocOk` is whether the `addDoc` call
succeeds (on failure the error is logged and only the flag is reset). -/
def handlePublishDiary (currentUser : Option CurrentUser) (now : Timestamp)
    (newId : String) (addDocOk : Bool) (s : PublishDiaryState) :
    PublishDiaryState :=
  match currentUser with
  | none => s
  | some u =>
    if s.newDiaryEntry.trim = "" then s
    else if s.hasPostedToday then s
    else if addDocOk then
      { s with
        diaries := s.diaries ++
          [⟨newId, u.uid, u.displayName, u.photoURL,
            s.newDiaryEntry.trim, some now⟩],
        newDiaryEntry := "",
        isPublishingDiary := false }
    else
      { s with isPublishingDiary := false }

/-! ## OneSignal push-subscription syncing (`App.tsx`)

On login the code reads `OneSignal.User.PushSubscription.id`; when it is
truthy it fetches the user document and issues
an `updateDoc` of the `oneSignalPlayerId` field only when the
document exists and its stored `oneSignalPlayerId` differs
(`!==`) from the subscription id. -/

/-- The fields of the user document that the sync code reads. -/
structure UserDoc where
  oneSignalPlayerId : Option String
deriving DecidableEq, Repr

/-- The value the login-time sync writes to `oneSignalPlayerId`, or
`none` when it issues no write. `subscriptionId` is the current push
subscription id (`none`/empty are falsy and skip the sync); `getDocOk`
is whether reading the user document succeeds (a failure is caught and
logged, and no write is issued). -/
def loginSyncPlayerIdWrite (subscriptionId : Option String)
    (getDocOk : Bool) (userDoc : Option UserDoc) : Option String :=
  match subscriptionId with
  | none => none
  | some s =>
    if s = "" then none
    else if getDocOk = false then none
    else
      match userDoc with
      | none => none
      | some d => if d.oneSignalPlayerId = some s then none else some s

/-! ## Chunking of followed ids (`MessagesModal.tsx`, `fetchDiaries`)

`for (let i = 0; i < followingIds.length; i += 30)
  userIdChunks.push(followingIds.slice(i, i + 30))`. -/

/-- The chunks of at most 30 followed user ids that `fetchDiaries`
issues one `in` query for each. -/
def chunkFollowingIds (l : List String) : List (List String) :=
  if h : l = [] then []
  else l.take 30 :: chunkFollowingIds (l.drop 30)
termination_by l.length
decreasing_by
  have hl : 0 < l.length := List.length_pos.mpr h
  simp only [List.length_drop]
  omega

/-! ## Latest-per-user selection and sorting (`fetchDiaries`, lines 205-215)

`latestDiariesMap` is a JavaScript `Map` built by iterating `allDiaries`
in order: a diary replaces the entry for its `userId` only when its
`createdAt.seconds` is strictly greater; `Map` iteration order is key
insertion order, and `set` on an existing key keeps its position. The
values are then sorted with the comparator
`(a, b) => (b.createdAt?.seconds || 0) - (a.createdAt?.seconds || 0)`,
i.e. by `createdAt.seconds` descending. -/

/-- `createdAt?.seconds || 0`: the sort key the comparator reads. On the
diaries reaching this point `createdAt` is always defined (they passed
the `createdAt?.seconds` guard), so this also matches the direct
`createdAt.seconds` reads in the `Map`-building step. -/
def sortKeySeconds (d : DiaryDoc) : Int :=
  match d.createdAt with
  | none => 0
  | some ts => ts.seconds

/-- One `latestDiariesMap.set` step: replace the (unique) entry with the
same `userId` when the new diary's seconds are strictly greater, keep it
in place otherwise, and append a first entry for a new `userId` at the
end. -/
def updateLatest (d : DiaryDoc) : List DiaryDoc → List DiaryDoc
  | [] => [d]
  | e :: rest =>
    if e.userId = d.userId then
      (if sortKeySeconds e < sortKeySeconds d then d else e) :: rest
    else
      e :: updateLatest d rest

/-- The values of `latestDiariesMap` in insertion order after the
`allDiaries.forEach` loop. -/
def latestDiariesList (l : List DiaryDoc) : List DiaryDoc :=
  l.foldl (fun acc d => updateLatest d acc) []

/-- The `sortedDiaries` array: the map's values sorted by
`createdAt.seconds` descending (a stable sort, as JavaScript's). -/
def sortedDiaries (l : List DiaryDoc) : List DiaryDoc :=
  l.mergeSort (fun a b => decide (sortKeySeconds b ≤ sortKeySeconds a))

/-- What `fetchDiaries` stores in `followedDiaries`: the fetched diaries
filtered by the 24-hour window, reduced to the latest per user, sorted
descending by seconds. -/
def followedDiariesResult (now : Int) (fetched : List DiaryDoc) : List DiaryDoc :=
  sortedDiaries (latestDiariesList (carouselCandidates now fetched))

/-! ## Starting a conversation (`MessagesModal.tsx`, `startConversationWithUser`) -/

/-- The target user as passed to `startConversationWithUser`. -/
structure TargetUser where
  id : String
  username : String
  avatar : String
deriving DecidableEq, Repr

/-- A participant's entry in the conversation's `participantInfo` map. -/
structure ParticipantInfo where
  username : String
  avatar : String
  lastSeenMessageTimestamp : Option Timestamp
deriving DecidableEq, Repr

/-- The `lastMessage` field of a conversation document. -/
structure LastMessage where
  senderId : String
  text : String
  timestamp : Timestamp
deriving DecidableEq, Repr

/-- The conversation document at `conversations/(conversationId)`.
`lastMessage` is absent on a freshly created conversation. -/
structure ConversationDoc where
  participants : List String
  participantInfo : List (String × ParticipantInfo)
  lastMessage : Option LastMessage
  timestamp : Timestamp
deriving DecidableEq, Repr

/-- A document of the conversation's `messages` subcollection. -/
structure MessageDoc where
  senderId : String
  text : String
  timestamp : Timestamp
deriving DecidableEq, Repr

/-- The Firestore state `startConversationWithUser` touches for the
derived conversation id, plus the component state it sets on success. -/
structure ConversationState where
  conversation : Option ConversationDoc
  messages : List MessageDoc
  activeConversationId : Option String
deriving DecidableEq, Repr

/-- `startConversationWithUser` (lines 224-277): derive the conversation
id; create the document when it does not exist, else update only its
`timestamp`; then, when an initial message is supplied, add a message
document and set `lastMessage`; finally select the conversation.
`now` stands for `serverTimestamp()`. -/
def startConversationWithUser (now : Timestamp)
    (currentUser : Option CurrentUser) (targetUser : TargetUser)
    (initialMessage : Option String) (s : ConversationState) :
    ConversationState :=
  match currentUser with
  | none => s
  | some u =>
    let currentUserId := u.uid
    let targetUserId := targetUser.id
    let s₁ : ConversationState :=
      match s.conversation with
      | none =>
        { s with conversation := some ({
            participants := [currentUserId, targetUserId],
            participantInfo :=
              [(currentUserId, ⟨u.displayName, u.photoURL, none⟩),
               (targetUserId, ⟨targetUser.username, targetUser.avatar, none⟩)],
            lastMessage := none,
            timestamp := now } : ConversationDoc) }
      | some c => { s with conversation := some { c with timestamp := now } }
    let s₂ : ConversationState :=
      match initialMessage with
      | none => s₁
      | some m =>
        { s₁ with
          messages := s₁.messages ++ [⟨currentUserId, m, now⟩],
          conversation := s₁.conversation.map fun c =>
            { c with lastMessage := some ⟨currentUserId, m, now⟩ } }
    { s₂ with
      activeConversationId := some (conversationId currentUserId targetUserId) }

/-! ## Share-image generation and publishing (`ConnectionStreakShareModal.tsx`) -/

/-- The i18n key of the "canvas error" message. -/
def canvasErrorMsg : String := "crystal.canvasError"

/-- The i18n key of the "failed to load image" message. -/
def imageLoadErrorMsg : String := "crystal.imageLoadError"

/-- The i18n key of the "failed to publish" message. -/
def shareErrorMsg : String := "crystal.shareError"

/-- The environment `generateImage` runs against: whether the canvas ref
and 2d context are available, the current user's photo URL, the streak,
and whether each of the two avatar image loads succeeds. -/
structure GenEnv where
  canvasAvailable : Bool
  photoURL : Option String
  ctxAvailable : Bool
  streak : Int
  userImgLoads : Bool
  otherImgLoads : Bool
deriving DecidableEq, Repr

/-- The component state `generateImage` leaves behind, plus the console
log and the background fill it drew. -/
structure GenState where
  isGenerating : Bool
  generatedImage : Option String
  error : String
  background : Option FillStyle
  consoleLog : List String
deriving DecidableEq, Repr

/-- `generateImage` (lines 55-159) as a total function: every rejection
it can encounter (the avatar loads) is awaited inside its `try` and
handled by the `catch`, so the routine always runs to completion. On a
load failure it logs, sets the image-load error message and still
finishes drawing; on missing canvas/photo/context it sets the canvas
error message and stops. -/
def generateImage (env : GenEnv) : GenState :=
  let s₀ : GenState :=
    { isGenerating := true, generatedImage := none, error := "",
      background := none, consoleLog := [] }
  if env.canvasAvailable = false ∨ env.photoURL = none ∨ env.photoURL = some "" then
    { s₀ with error := canvasErrorMsg, isGenerating := false }
  else if env.ctxAvailable = false then
    { s₀ with error := canvasErrorMsg, isGenerating := false }
  else
    let s₁ : GenState := { s₀ with background := some (backgroundFillStyle env.streak) }
    let s₂ : GenState :=
      if env.userImgLoads && env.otherImgLoads then s₁
      else
        { s₁ with
          error := imageLoadErrorMsg,
          consoleLog := s₁.consoleLog ++ ["Error loading images for canvas:"] }
    { s₂ with generatedImage := some "data:image/png", isGenerating := false }

/-- A document of the `pulses` collection as `handlePublish` creates it. -/
structure PulseDoc where
  authorId : String
  mediaUrl : String
  legenda : String
  createdAt : Timestamp
deriving DecidableEq, Repr

/-- The environment `handlePublish` runs against: the guards it reads,
whether the synchronous `toBlob` call itself throws, the blob the
`toBlob` callback receives (`none` embeds a `null` blob), and the
outcomes of the storage upload, download-URL fetch and `addDoc`. -/
structure PublishEnv where
  generatedImage : Option String
  canvasAvailable : Bool
  currentUser : Option CurrentUser
  toBlobThrows : Bool
  blob : Option String
  uploadOk : Bool
  getUrlOk : Bool
  downloadURL : String
  addDocOk : Bool
  streak : Int
deriving DecidableEq, Repr

/-- The state `handlePublish` touches: the flags and error message, the
`pulses` collection, the console log, whether `onPulseCreated` fired,
and whether an async rejection escaped unhandled. -/
structure PublishState where
  isPublishing : Bool
  error : String
  pulses : List PulseDoc
  consoleLog : List String
  pulseCreatedFired : Bool
  unhandledRejection : Bool
deriving DecidableEq, Repr

/-- The caption `handlePublish` writes:
`t('crystal.streakDays', ...) + ' ' + t('crystal.vibe')`. -/
def streakLegenda (streak : Int) : String :=
  "crystal.streakDays " ++ toString streak ++ " crystal.vibe"

/-- `handlePublish` (lines 165-194), including what its callback does
once `toBlob` delivers. The `try/catch` wraps only the synchronous call
to `toBlob`: the callback passed to `toBlob` is an `async` function that
runs later, so a `throw` or a rejected `await` inside it (null blob,
failed upload, failed `getDownloadURL`, failed `addDoc`) becomes an
unhandled promise rejection — the `catch` block never runs for those,
nothing is logged by the handler, `error` keeps its value and
`isPublishing` stays `true`. `now` stands for `serverTimestamp()`. -/
def handlePublish (env : PublishEnv) (now : Timestamp) (s : PublishState) :
    PublishState :=
  match env.currentUser with
  | none => s
  | some u =>
    if env.generatedImage = none ∨ env.canvasAvailable = false then s
    else
      let s₁ : PublishState := { s with isPublishing := true, error := "" }
      if env.toBlobThrows then
        { s₁ with
          consoleLog := s₁.consoleLog ++ ["console.error"],
          error := shareErrorMsg,
          isPublishing := false }
      else
        match env.blob with
        | none => { s₁ with unhandledRejection := true }
        | some _ =>
          if env.uploadOk = false then { s₁ with unhandledRejection := true }
          else if env.getUrlOk = false then { s₁ with unhandledRejection := true }
          else if env.addDocOk = false then { s₁ with unhandledRejection := true }
          else
            { s₁ with
              pulses := s₁.pulses ++
                [⟨u.uid, env.downloadURL, streakLegenda env.streak, now⟩],
              pulseCreatedFired := true }

end Conecta

namespace Conecta

/-- C1: For every pair of participant user ids, `startConversationWithUser`
derives the same conversation document id whichever of the two users
initiates: `conversationId a b = conversationId b a`. -/
theorem conversationId_comm (a b : String) :
    conversationId a b = conversationId b a := by
  unfold conversationId
  rcases le_total a b with h | h
  · rcases eq_or_lt_of_le h with rfl | hlt
    · simp
    · rw [if_pos h, if_neg (not_le.mpr hlt)]
  · rcases eq_or_lt_of_le h with rfl | hlt
    · simp
    · rw [if_pos h, if_neg (not_le.mpr hlt)]

/-- C4: The share-image background is a three-tier selection by streak
count: for every integer streak exactly one tier applies — streak at most
3 gives the solid gray `#374151` fill, streak between 4 and 6 gives the
two-stop blue-to-indigo linear gradient, and streak 7 or more gives the
three-stop amber-red-violet linear gradient. -/
theorem backgroundFillStyle_three_tiers (s : Int) :
    (s ≤ 3 ∧ ¬(4 ≤ s ∧ s ≤ 6) ∧ ¬(7 ≤ s) ∧
      backgroundFillStyle s = .solid "#374151")
    ∨ (¬(s ≤ 3) ∧ (4 ≤ s ∧ s ≤ 6) ∧ ¬(7 ≤ s) ∧
      backgroundFillStyle s = .linearGradient [(0, "#3B82F6"), (1, "#6366F1")])
    ∨ (¬(s ≤ 3) ∧ ¬(4 ≤ s ∧ s ≤ 6) ∧ 7 ≤ s ∧
      backgroundFillStyle s =
        .linearGradient [(0, "#F59E0B"), (1/2, "#EF4444"), (1, "#8B5CF6")]) := by
  unfold backgroundFillStyle
  rcases le_or_lt s 3 with h3 | h3
  · exact Or.inl ⟨h3, by omega, by omega, by rw [if_pos h3]⟩
  · rcases le_or_lt s 6 with h6 | h6
    · exact Or.inr (Or.inl ⟨by omega, ⟨by omega, h6⟩, by omega,
        by rw [if_neg (by omega), if_pos h6]⟩)
    · exact Or.inr (Or.inr ⟨by omega, by omega, by omega,
        by rw [if_neg (by omega), if_neg (by omega)]⟩)

/-- C3: Provided the current time is at least 24 hours past the Unix
epoch, `fetchDiaries` puts a fetched diary in the carousel candidate set
if and only if its `createdAt` timestamp is defined and strictly later
than 24 hours before the current time. -/
theorem diary_candidate_iff (now : Int) (fetched : List DiaryDoc)
    (d : DiaryDoc) (hnow : 24 * 60 * 60 * 1000 ≤ now) :
    d ∈ carouselCandidates now fetched ↔
      d ∈ fetched ∧ ∃ ts, d.createdAt = some ts ∧
        now - 24 * 60 * 60 * 1000 < ts.seconds * 1000 := by
  unfold carouselCandidates
  rw [List.mem_filter]
  refine and_congr_right fun _ => ?_
  cases hca : d.createdAt with
  | none => simp [diaryVisible, hca]
  | some ts =>
    simp only [diaryVisible, hca]
    by_cases hz : ts.seconds = 0
    · rw [if_pos hz]
      simp only [Bool.false_eq_true, false_iff]
      rintro ⟨ts', hts', hlt⟩
      injection hts' with hts'
      subst hts'
      omega
    · rw [if_neg hz]
      simp only [decide_eq_true_eq]
      constructor
      · exact fun h => ⟨ts, rfl, h⟩
      · rintro ⟨ts', hts', hlt⟩
        injection hts' with hts'
        subst hts'
        exact hlt

/-- C2: `handlePublishDiary` enforces one diary per user per day at the
UI level: when `hasPostedToday` holds, or the trimmed entry text is
empty, or no user is signed in, it creates no diary document and leaves
all state unchanged; and whenever the diaries change at all, none of
those conditions held and exactly one new document by the current user
was appended. -/
theorem handlePublishDiary_once_per_day (currentUser : Option CurrentUser)
    (now : Timestamp) (newId : String) (addDocOk : Bool)
    (s : PublishDiaryState) :
    (currentUser = none ∨ s.newDiaryEntry.trim = "" ∨ s.hasPostedToday = true →
      handlePublishDiary currentUser now newId addDocOk s = s)
    ∧ ((handlePublishDiary currentUser now newId addDocOk s).diaries ≠ s.diaries →
      currentUser ≠ none ∧ s.newDiaryEntry.trim ≠ "" ∧ s.hasPostedToday = false ∧
      ∃ u, currentUser = some u ∧
        (handlePublishDiary currentUser now newId addDocOk s).diaries =
          s.diaries ++
            [⟨newId, u.uid, u.displayName, u.photoURL,
              s.newDiaryEntry.trim, some now⟩]) := by
  constructor
  · intro hguard
    cases currentUser with
    | none => rfl
    | some u =>
      simp only [handlePublishDiary]
      rcases hguard with h | h | h
      · exact absurd h (by simp)
      · rw [if_pos h]
      · by_cases htrim : s.newDiaryEntry.trim = ""
        · rw [if_pos htrim]
        · rw [if_neg htrim, if_pos h]
  · intro hchanged
    cases currentUser with
    | none => exact absurd rfl hchanged
    | some u =>
      by_cases htrim : s.newDiaryEntry.trim = ""
      · simp [handlePublishDiary, htrim] at hchanged
      · by_cases hposted : s.hasPostedToday
        · simp [handlePublishDiary, htrim, hposted] at hchanged
        · refine ⟨by simp, htrim, by simpa using hposted, u, rfl, ?_⟩
          cases addDocOk with
          | false =>
            exact absurd (by simp [handlePublishDiary, htrim, hposted]) hchanged
          | true =>
            simp [handlePublishDiary, htrim, hposted]

/-- A concrete signed-in user for witnessing. -/
def sampleUser : CurrentUser := ⟨"u1", "Alice", "a.png"⟩

/-- A concrete publish state in which the user already posted today. -/
def samplePublishState : PublishDiaryState := ⟨[], "hi", false, true, none⟩

/-- A concrete server timestamp for witnessing. -/
def sampleNow : Timestamp := ⟨5, 0⟩

/-- Witness for C2 on a concrete blocked state (the user posted today). -/
theorem handlePublishDiary_once_per_day_witness :
    (some sampleUser = none ∨ samplePublishState.newDiaryEntry.trim = "" ∨
        samplePublishState.hasPostedToday = true →
      handlePublishDiary (some sampleUser) sampleNow "d9" true
          samplePublishState = samplePublishState)
    ∧ ((handlePublishDiary (some sampleUser) sampleNow "d9" true
          samplePublishState).diaries ≠ samplePublishState.diaries →
      some sampleUser ≠ none ∧
      samplePublishState.newDiaryEntry.trim ≠ "" ∧
      samplePublishState.hasPostedToday = false ∧
      ∃ u, some sampleUser = some u ∧
        (handlePublishDiary (some sampleUser) sampleNow "d9" true
            samplePublishState).diaries =
          samplePublishState.diaries ++
            [⟨"d9", u.uid, u.displayName, u.photoURL,
              samplePublishState.newDiaryEntry.trim, some sampleNow⟩]) :=
  handlePublishDiary_once_per_day (some sampleUser) sampleNow "d9" true
    samplePublishState

/-- C7: the login-time OneSignal sync is idempotent with respect to
Firestore: a write of `oneSignalPlayerId` is issued only when the user
document exists and its stored value differs from the current
subscription id, and when the stored value already equals the current
subscription id no write is issued. -/
theorem loginSyncPlayerIdWrite_idempotent (subscriptionId : Option String)
    (getDocOk : Bool) (userDoc : Option UserDoc) :
    (∀ v, loginSyncPlayerIdWrite subscriptionId getDocOk userDoc = some v →
      ∃ s d, subscriptionId = some s ∧ v = s ∧ userDoc = some d ∧
        d.oneSignalPlayerId ≠ some s)
    ∧ (∀ s d, subscriptionId = some s → userDoc = some d →
      d.oneSignalPlayerId = some s →
      loginSyncPlayerIdWrite subscriptionId getDocOk userDoc = none) := by
  constructor
  · intro v hv
    unfold loginSyncPlayerIdWrite at hv
    split at hv
    · exact absurd hv (by simp)
    next s =>
      split at hv
      · exact absurd hv (by simp)
      · split at hv
        · exact absurd hv (by simp)
        · split at hv
          · exact absurd hv (by simp)
          next d =>
            split at hv
            · exact absurd hv (by simp)
            next heq =>
              injection hv with hv
              exact ⟨s, d, rfl, hv.symm, rfl, heq⟩
  · rintro s d rfl rfl heq
    simp only [loginSyncPlayerIdWrite]
    by_cases hs : s = ""
    · rw [if_pos hs]
    · rw [if_neg hs]
      cases getDocOk with
      | false => rw [if_pos rfl]
      | true => rw [if_neg (by simp), if_pos heq]

/-- The chunks' flattening gives back the original id list. -/
theorem chunkFollowingIds_flatten (l : List String) :
    (chunkFollowingIds l).flatten = l := by
  induction l using chunkFollowingIds.induct with
  | case1 => rw [chunkFollowingIds]; rfl
  | case2 l h ih =>
    rw [chunkFollowingIds, dif_neg h]
    rw [List.flatten_cons, ih, List.take_append_drop]

/-- Every chunk is nonempty and holds at most 30 ids. -/
theorem chunkFollowingIds_mem (l : List String) :
    ∀ c ∈ chunkFollowingIds l, c.length ≤ 30 ∧ c ≠ [] := by
  induction l using chunkFollowingIds.induct with
  | case1 => rw [chunkFollowingIds]; intro c hc; exact absurd hc (by simp)
  | case2 l h ih =>
    rw [chunkFollowingIds, dif_neg h]
    intro c hc
    rcases List.mem_cons.mp hc with rfl | hc
    · refine ⟨by simp, ?_⟩
      intro he
      rcases List.take_eq_nil_iff.mp he with h30 | hnil
      · omega
      · exact h hnil
    · exact ih c hc

/-- C9: `fetchDiaries` partitions the followed ids into consecutive
chunks of at most 30 elements whose in-order concatenation equals the
original list (so, when the ids are distinct, no id occurs in two
chunks), and every `in` query it issues gets a nonempty chunk of at
most 30 ids. -/
theorem chunkFollowingIds_partition (l : List String) :
    (chunkFollowingIds l).flatten = l
    ∧ (∀ c ∈ chunkFollowingIds l, c.length ≤ 30 ∧ c ≠ [])
    ∧ (l.Nodup → (chunkFollowingIds l).Pairwise List.Disjoint) := by
  refine ⟨chunkFollowingIds_flatten l, chunkFollowingIds_mem l, fun hnd => ?_⟩
  rw [← chunkFollowingIds_flatten l] at hnd
  exact (List.nodup_flatten.mp hnd).2

/-- A concrete existing conversation used for witnessing. -/
def sampleConversation : ConversationDoc :=
  { participants := ["u1", "u2"],
    participantInfo :=
      [("u1", ⟨"Alice", "a.png", none⟩), ("u2", ⟨"Bob", "b.png", none⟩)],
    lastMessage := none,
    timestamp := ⟨1, 0⟩ }

/-- A concrete state holding the existing conversation. -/
def sampleConvState : ConversationState :=
  { conversation := some sampleConversation, messages := [],
    activeConversationId := none }

/-- C10: when the conversation document already exists and no initial
message is supplied, `startConversationWithUser` writes only the
conversation's `timestamp` field — `participants`, `participantInfo`
and `lastMessage` keep their values — and creates no message document. -/
theorem startConversation_existing_frame (now : Timestamp)
    (u : CurrentUser) (targetUser : TargetUser) (c : ConversationDoc)
    (s : ConversationState) (hconv : s.conversation = some c) :
    (startConversationWithUser now (some u) targetUser none s).conversation =
      some { c with timestamp := now }
    ∧ (startConversationWithUser now (some u) targetUser none s).messages =
      s.messages := by
  simp [startConversationWithUser, hconv]

/-- Witness for C10 on a concrete existing conversation. -/
theorem startConversation_existing_frame_witness :
    (startConversationWithUser ⟨2, 0⟩ (some sampleUser) ⟨"u2", "Bob", "b.png"⟩
        none sampleConvState).conversation =
      some { sampleConversation with timestamp := ⟨2, 0⟩ }
    ∧ (startConversationWithUser ⟨2, 0⟩ (some sampleUser) ⟨"u2", "Bob", "b.png"⟩
        none sampleConvState).messages = sampleConvState.messages :=
  startConversation_existing_frame ⟨2, 0⟩ sampleUser ⟨"u2", "Bob", "b.png"⟩
    sampleConversation sampleConvState rfl

/-- C6: when either avatar image fails to load during share-image
generation (canvas, photo URL and drawing context being available),
`generateImage` catches the load failure, logs it, sets the
"failed to load image" message, and still completes normally instead of
throwing. -/
theorem generateImage_load_failure (env : GenEnv)
    (hcanvas : env.canvasAvailable = true)
    (hphoto : ∃ p, env.photoURL = some p ∧ p ≠ "")
    (hctx : env.ctxAvailable = true)
    (hfail : env.userImgLoads = false ∨ env.otherImgLoads = false) :
    (generateImage env).error = imageLoadErrorMsg
    ∧ "Error loading images for canvas:" ∈ (generateImage env).consoleLog
    ∧ (generateImage env).isGenerating = false
    ∧ (generateImage env).generatedImage.isSome = true := by
  obtain ⟨p, hp, hpne⟩ := hphoto
  rcases hfail with h | h <;>
    simp [generateImage, hcanvas, hp, hpne, hctx, h]

/-- A concrete generation environment whose first avatar load fails. -/
def sampleGenEnv : GenEnv :=
  { canvasAvailable := true, photoURL := some "a.png", ctxAvailable := true,
    streak := 5, userImgLoads := false, otherImgLoads := true }

/-- Witness for C6 on a concrete failing avatar load. -/
theorem generateImage_load_failure_witness :
    (generateImage sampleGenEnv).error = imageLoadErrorMsg
    ∧ "Error loading images for canvas:" ∈ (generateImage sampleGenEnv).consoleLog
    ∧ (generateImage sampleGenEnv).isGenerating = false
    ∧ (generateImage sampleGenEnv).generatedImage.isSome = true :=
  generateImage_load_failure sampleGenEnv rfl ⟨"a.png", rfl, by decide⟩ rfl
    (Or.inl rfl)

/-- A concrete publish environment in which `toBlob` delivers a null
blob (blob conversion fails) while everything else would succeed. -/
def sampleFailEnv : PublishEnv :=
  { generatedImage := some "data:image/png", canvasAvailable := true,
    currentUser := some sampleUser, toBlobThrows := false, blob := none,
    uploadOk := true, getUrlOk := true, downloadURL := "https://s/p.png",
    addDocOk := true, streak := 7 }

/-- The publish state before clicking the share button. -/
def samplePublishStart : PublishState :=
  { isPublishing := false, error := "", pulses := [], consoleLog := [],
    pulseCreatedFired := false, unhandledRejection := false }

/-- C5 evaluated at a failing input: when the `toBlob` callback receives
a null blob, the `throw` inside the async callback escapes the `try` /
`catch` of `handlePublish` as an unhandled rejection — the handler logs
nothing, the error message stays empty (the "failed to publish" message
is never set), the publishing flag stays `true`, and no pulse document
is created. -/
theorem handlePublish_blob_failure_unhandled :
    handlePublish sampleFailEnv ⟨10, 0⟩ samplePublishStart =
      { isPublishing := true, error := "", pulses := [], consoleLog := [],
        pulseCreatedFired := false, unhandledRejection := true } := by
  rfl

/-- Every element after a `set` step was already present or is the new diary. -/
theorem updateLatest_mem (d : DiaryDoc) (acc : List DiaryDoc) :
    ∀ x ∈ updateLatest d acc, x ∈ acc ∨ x = d := by
  induction acc with
  | nil =>
    intro x hx
    simp only [updateLatest, List.mem_singleton] at hx
    exact Or.inr hx
  | cons e rest ih =>
    intro x hx
    simp only [updateLatest] at hx
    by_cases he : e.userId = d.userId
    · rw [if_pos he] at hx
      by_cases hk : sortKeySeconds e < sortKeySeconds d
      · rw [if_pos hk] at hx
        rcases List.mem_cons.mp hx with rfl | hx
        · exact Or.inr rfl
        · exact Or.inl (List.mem_cons_of_mem e hx)
      · rw [if_neg hk] at hx
        rcases List.mem_cons.mp hx with rfl | hx
        · exact Or.inl (List.mem_cons_self _ _)
        · exact Or.inl (List.mem_cons_of_mem e hx)
    · rw [if_neg he] at hx
      rcases List.mem_cons.mp hx with rfl | hx
      · exact Or.inl (List.mem_cons_self _ _)
      · rcases ih x hx with h | h
        · exact Or.inl (List.mem_cons_of_mem e h)
        · exact Or.inr h

/-- A `set` step preserves distinctness of the `userId` keys. -/
theorem updateLatest_pairwise (d : DiaryDoc) (acc : List DiaryDoc)
    (h1 : acc.Pairwise fun a b => a.userId ≠ b.userId) :
    (updateLatest d acc).Pairwise fun a b => a.userId ≠ b.userId := by
  induction acc with
  | nil => simp [updateLatest]
  | cons e rest ih =>
    rw [List.pairwise_cons] at h1
    obtain ⟨he1, h1r⟩ := h1
    simp only [updateLatest]
    by_cases he : e.userId = d.userId
    · rw [if_pos he]
      rw [List.pairwise_cons]
      have huid : (if sortKeySeconds e < sortKeySeconds d then d else e).userId
          = e.userId := by
        by_cases hk : sortKeySeconds e < sortKeySeconds d
        · rw [if_pos hk, ← he]
        · rw [if_neg hk]
      exact ⟨fun y hy => huid ▸ he1 y hy, h1r⟩
    · rw [if_neg he]
      rw [List.pairwise_cons]
      refine ⟨?_, ih h1r⟩
      intro y hy
      rcases updateLatest_mem d rest y hy with h | rfl
      · exact he1 y h
      · exact he

/-- After a `set` step, each element either was present and beats the new
diary on its own key, or is the new diary and beats every present entry
of its key. -/
theorem updateLatest_max (d : DiaryDoc) (acc : List DiaryDoc)
    (h1 : acc.Pairwise fun a b => a.userId ≠ b.userId) :
    ∀ x ∈ updateLatest d acc,
      (x ∈ acc ∧ (x.userId = d.userId → sortKeySeconds d ≤ sortKeySeconds x))
      ∨ (x = d ∧ ∀ y ∈ acc, y.userId = d.userId →
          sortKeySeconds y ≤ sortKeySeconds d) := by
  induction acc with
  | nil =>
    intro x hx
    simp only [updateLatest, List.mem_singleton] at hx
    subst hx
    exact Or.inr ⟨rfl, by simp⟩
  | cons e rest ih =>
    rw [List.pairwise_cons] at h1
    obtain ⟨he1, h1r⟩ := h1
    intro x hx
    simp only [updateLatest] at hx
    by_cases he : e.userId = d.userId
    · rw [if_pos he] at hx
      by_cases hk : sortKeySeconds e < sortKeySeconds d
      · rw [if_pos hk] at hx
        rcases List.mem_cons.mp hx with rfl | hx
        · refine Or.inr ⟨rfl, ?_⟩
          intro y hy hyid
          rcases List.mem_cons.mp hy with rfl | hy
          · exact le_of_lt hk
          · exact absurd (he.trans hyid.symm) (he1 y hy)
        · refine Or.inl ⟨List.mem_cons_of_mem e hx, ?_⟩
          intro hxid
          exact absurd (he.trans hxid.symm) (he1 x hx)
      · rw [if_neg hk] at hx
        rcases List.mem_cons.mp hx with rfl | hx
        · exact Or.inl ⟨List.mem_cons_self _ _, fun _ => le_of_not_lt hk⟩
        · refine Or.inl ⟨List.mem_cons_of_mem e hx, ?_⟩
          intro hxid
          exact absurd (he.trans hxid.symm) (he1 x hx)
    · rw [if_neg he] at hx
      rcases List.mem_cons.mp hx with rfl | hx
      · refine Or.inl ⟨List.mem_cons_self _ _, ?_⟩
        intro hxid
        exact absurd hxid he
      · rcases ih h1r x hx with ⟨hmem, hmax⟩ | ⟨rfl, hall⟩
        · exact Or.inl ⟨List.mem_cons_of_mem e hmem, hmax⟩
        · refine Or.inr ⟨rfl, ?_⟩
          intro y hy hyid
          rcases List.mem_cons.mp hy with rfl | hy
          · exact absurd hyid he
          · exact hall y hy hyid

/-- A `set` step keeps an entry for every key already present and ensures
one for the new diary's key. -/
theorem updateLatest_cover (d : DiaryDoc) (acc : List DiaryDoc) :
    (∀ x ∈ acc, ∃ z ∈ updateLatest d acc, z.userId = x.userId)
    ∧ ∃ z ∈ updateLatest d acc, z.userId = d.userId := by
  induction acc with
  | nil =>
    refine ⟨by simp, d, ?_, rfl⟩
    simp [updateLatest]
  | cons e rest ih =>
    by_cases he : e.userId = d.userId
    · have huid : (if sortKeySeconds e < sortKeySeconds d then d else e).userId
          = e.userId := by
        by_cases hk : sortKeySeconds e < sortKeySeconds d
        · rw [if_pos hk, ← he]
        · rw [if_neg hk]
      constructor
      · intro x hx
        rcases List.mem_cons.mp hx with rfl | hx
        · refine ⟨_, ?_, huid⟩
          simp only [updateLatest, if_pos he]
          exact List.mem_cons_self _ _
        · refine ⟨x, ?_, rfl⟩
          simp only [updateLatest, if_pos he]
          exact List.mem_cons_of_mem _ hx
      · refine ⟨_, ?_, huid.trans he⟩
        simp only [updateLatest, if_pos he]
        exact List.mem_cons_self _ _
    · constructor
      · intro x hx
        rcases List.mem_cons.mp hx with rfl | hx
        · refine ⟨x, ?_, rfl⟩
          simp only [updateLatest, if_neg he]
          exact List.mem_cons_self _ _
        · obtain ⟨z, hz, hzid⟩ := ih.1 x hx
          refine ⟨z, ?_, hzid⟩
          simp only [updateLatest, if_neg he]
          exact List.mem_cons_of_mem _ hz
      · obtain ⟨z, hz, hzid⟩ := ih.2
        refine ⟨z, ?_, hzid⟩
        simp only [updateLatest, if_neg he]
        exact List.mem_cons_of_mem _ hz

/-- Invariant of the `allDiaries.forEach` loop over the processed prefix
`p`: the accumulated entries have distinct keys, each is a processed diary
maximal for its key, and every processed key has an entry. -/
theorem foldl_updateLatest_inv (l : List DiaryDoc) (p acc : List DiaryDoc)
    (h1 : acc.Pairwise fun a b => a.userId ≠ b.userId)
    (h2 : ∀ x ∈ acc, x ∈ p ∧ ∀ y ∈ p, y.userId = x.userId →
      sortKeySeconds y ≤ sortKeySeconds x)
    (h3 : ∀ y ∈ p, ∃ x ∈ acc, x.userId = y.userId) :
    ((l.foldl (fun a d => updateLatest d a) acc).Pairwise
        fun a b => a.userId ≠ b.userId)
    ∧ (∀ x ∈ l.foldl (fun a d => updateLatest d a) acc,
        x ∈ p ++ l ∧ ∀ y ∈ p ++ l, y.userId = x.userId →
          sortKeySeconds y ≤ sortKeySeconds x)
    ∧ (∀ y ∈ p ++ l, ∃ x ∈ l.foldl (fun a d => updateLatest d a) acc,
        x.userId = y.userId) := by
  induction l generalizing p acc with
  | nil => simpa using ⟨h1, h2, h3⟩
  | cons d rest ih =>
    have h1x := updateLatest_pairwise d acc h1
    have h2x : ∀ x ∈ updateLatest d acc, x ∈ p ++ [d] ∧
        ∀ y ∈ p ++ [d], y.userId = x.userId →
          sortKeySeconds y ≤ sortKeySeconds x := by
      intro x hx
      rcases updateLatest_max d acc h1 x hx with ⟨hmem, hmax⟩ | ⟨hxd, hall⟩
      · obtain ⟨hp, hmaxp⟩ := h2 x hmem
        refine ⟨List.mem_append_left _ hp, ?_⟩
        intro y hy hyid
        rcases List.mem_append.mp hy with hy | hy
        · exact hmaxp y hy hyid
        · have hyd : y = d := by simpa using hy
          subst hyd
          exact hmax hyid.symm
      · refine ⟨List.mem_append_right _ (by simp [hxd]), ?_⟩
        intro y hy hyid
        rw [hxd] at hyid ⊢
        rcases List.mem_append.mp hy with hy | hy
        · obtain ⟨z, hz, hzid⟩ := h3 y hy
          obtain ⟨hzp, hzmax⟩ := h2 z hz
          exact le_trans (hzmax y hy hzid.symm) (hall z hz (hzid.trans hyid))
        · have hyd : y = d := by simpa using hy
          exact le_of_eq (by rw [hyd])
    have h3x : ∀ y ∈ p ++ [d], ∃ x ∈ updateLatest d acc,
        x.userId = y.userId := by
      intro y hy
      rcases List.mem_append.mp hy with hy | hy
      · obtain ⟨z, hz, hzid⟩ := h3 y hy
        obtain ⟨z₂, hz₂, hz₂id⟩ := (updateLatest_cover d acc).1 z hz
        exact ⟨z₂, hz₂, hz₂id.trans hzid⟩
      · have hyd : y = d := by simpa using hy
        rw [hyd]
        exact (updateLatest_cover d acc).2
    have hmain := ih (p ++ [d]) (updateLatest d acc) h1x h2x h3x
    rw [List.foldl_cons]
    simpa [List.append_assoc] using hmain

/-- The deduplicate-then-sort pipeline on an arbitrary candidate list:
distinct users, per-user maximality, and non-increasing seconds. -/
theorem latestSorted_spec (cand : List DiaryDoc) :
    ((sortedDiaries (latestDiariesList cand)).Pairwise
        fun a b => a.userId ≠ b.userId)
    ∧ (∀ x ∈ sortedDiaries (latestDiariesList cand),
        x ∈ cand ∧ ∀ y ∈ cand, y.userId = x.userId →
          sortKeySeconds y ≤ sortKeySeconds x)
    ∧ (sortedDiaries (latestDiariesList cand)).Pairwise
        (fun a b => sortKeySeconds b ≤ sortKeySeconds a) := by
  have hperm : List.Perm (sortedDiaries (latestDiariesList cand))
      (latestDiariesList cand) :=
    List.mergeSort_perm _ _
  have hinv := foldl_updateLatest_inv cand [] [] (by simp) (by simp) (by simp)
  simp only [List.nil_append] at hinv
  refine ⟨?_, ?_, ?_⟩
  · exact (hperm.pairwise_iff fun h he => h he.symm).mpr hinv.1
  · intro x hx
    exact hinv.2.1 x (hperm.mem_iff.mp hx)
  · have hs := @List.sorted_mergeSort DiaryDoc
      (fun a b : DiaryDoc => decide (sortKeySeconds b ≤ sortKeySeconds a))
      (fun a b c hab hbc => by
        simp only [decide_eq_true_eq] at hab hbc ⊢
        exact le_trans hbc hab)
      (fun a b => by
        simp only [Bool.or_eq_true, decide_eq_true_eq]
        exact le_total _ _)
      (latestDiariesList cand)
    exact hs.imp fun h => of_decide_eq_true h

/-- C8: after fetching, the followed-diaries carousel list has at most
one entry per `userId` — each entry is a fetched-and-filtered diary with
the greatest `createdAt.seconds` among those of its user — and the
entries are sorted in non-increasing order of `createdAt.seconds`. -/
theorem followedDiaries_latest_per_user_sorted (now : Int)
    (fetched : List DiaryDoc) :
    ((followedDiariesResult now fetched).Pairwise
        fun a b => a.userId ≠ b.userId)
    ∧ (∀ x ∈ followedDiariesResult now fetched,
        x ∈ carouselCandidates now fetched ∧
        ∀ y ∈ carouselCandidates now fetched, y.userId = x.userId →
          sortKeySeconds y ≤ sortKeySeconds x)
    ∧ (followedDiariesResult now fetched).Pairwise
        (fun a b => sortKeySeconds b ≤ sortKeySeconds a) :=
  latestSorted_spec (carouselCandidates now fetched)

/-- A concrete diary used to witness the 24-hour filter theorem. -/
def sampleDiary : DiaryDoc :=
  { id := "d1", userId := "u1", username := "alice", userAvatar := "a.png",
    text := "hello", createdAt := some ⟨100000, 0⟩ }

/-- Witness for C3 at a concrete time and diary. -/
theorem diary_candidate_iff_witness :
    sampleDiary ∈ carouselCandidates 172800000 [sampleDiary] ↔
      sampleDiary ∈ [sampleDiary] ∧ ∃ ts, sampleDiary.createdAt = some ts ∧
        172800000 - 24 * 60 * 60 * 1000 < ts.seconds * 1000 :=
  diary_candidate_iff 172800000 [sampleDiary] sampleDiary (by decide)

end Conecta
